import Mathlib

/-
Shallow embedding of the Deriv trading bot (source file
.github/workflows/master3.py).

The program drives one run: connect to a websocket with bounded retry,
authenticate, place `num_trades` contracts while growing the stake every
`trade_interval` accepted trades, then monitor all open contracts
concurrently, and finally close the socket.

Venue behaviour (the contents of each received message, and whether a
receive raises) is modelled by explicit response scripts, one entry per
receive.  Money is modelled by exact rationals; Python's two-decimal
`round` (round half to even) is reproduced on rationals, and on every
value arising in the claims the float and rational results coincide.
-/

/-- Floor of a rational, via flooring integer division of the numerator
by the denominator. -/
def ratFloor (q : ℚ) : ℤ := Int.fdiv q.num (q.den : ℤ)

/-- Round a rational to the nearest integer, ties to the even integer:
the rounding Python's builtin `round` applies.  The fractional part
`q - ratFloor q` equals `(q.num - ratFloor q * q.den) / q.den`, so it is
compared with `1/2` by comparing twice its numerator with the
denominator, keeping everything in integer arithmetic. -/
def roundHalfEven (q : ℚ) : ℤ :=
  if 2 * (q.num - ratFloor q * (q.den : ℤ)) < (q.den : ℤ) then ratFloor q
  else if (q.den : ℤ) < 2 * (q.num - ratFloor q * (q.den : ℤ)) then ratFloor q + 1
  else if ratFloor q % 2 = 0 then ratFloor q else ratFloor q + 1

/-- Python `round(x, 2)`, from the source line
`amount = round(amount * (1 + increase_rate), 2)`. -/
def pyround2 (q : ℚ) : ℚ := (roundHalfEven (q * 100) : ℚ) / 100

/-- One venue response to a buy request: an error envelope, or a success
envelope whose `buy.contract_id` may be missing or null (`none`); `exn`
is a send/receive/decoding step that raises instead of returning. -/
inductive PlaceResp
  | err
  | ok (contract_id : Option ℕ)
  | exn
deriving DecidableEq

/-- Function `place_trade`: builds the buy request from the trade
parameters and the current stake, sends it, and reads one response.  An
error envelope is logged and yields `None`; otherwise the (possibly
missing) `buy.contract_id` is returned.  `Except.error` models an
exception escaping the call: nothing inside `place_trade` catches it. -/
def place_trade (amount : ℚ) (resp : PlaceResp) : Except String (Option ℕ) :=
  match resp with
  | PlaceResp.err => Except.ok none
  | PlaceResp.ok cid => Except.ok cid
  | PlaceResp.exn => Except.error "recv raised"

/-- Mutable state of the placement loop in `trading_loop`: the current
stake `amount`, the counter `trades_executed`, the set `open_trades`,
plus two observation traces of the run: `succs`, the contract ids of
accepted placements in order, and `stakes`, the stake submitted with
each `place_trade` call in order. -/
structure PlaceState where
  amount : ℚ
  trades_executed : ℕ
  open_trades : Finset ℕ
  succs : List ℕ
  stakes : List ℚ
deriving DecidableEq

/-- State just before the placement loop: `amount = base_amount`,
`trades_executed = 0`, `open_trades = set()`. -/
def initState (base : ℚ) : PlaceState := ⟨base, 0, ∅, [], []⟩

/-- Records the stake passed to a `place_trade` call, at the moment the
buy request is sent. -/
def recordStake (s : PlaceState) : PlaceState :=
  { s with stakes := s.stakes ++ [s.amount] }

/-- The lines `open_trades.add(contract_id)` and `trades_executed += 1`,
run when `if contract_id:` holds. -/
def acceptTrade (c : ℕ) (s : PlaceState) : PlaceState :=
  { s with open_trades := insert c s.open_trades,
           trades_executed := s.trades_executed + 1,
           succs := s.succs ++ [c] }

/-- The lines `if trades_executed % trade_interval == 0:` /
`amount = round(amount * (1 + increase_rate), 2)`, run after every
placement attempt, successful or not. -/
def stakeAdjust (k : ℕ) (r : ℚ) (s : PlaceState) : PlaceState :=
  if s.trades_executed % k = 0 then
    { s with amount := pyround2 (s.amount * (1 + r)) }
  else s

/-- How the placement phase ends: the `while` guard failed
(`completed`), a placement raised and control jumped to the
orchestrator's `except` (`exnCaught`), or the response script ran out
while the loop was still blocked on a receive (`scriptEnded`). -/
inductive LoopExit
  | completed
  | exnCaught
  | scriptEnded
deriving DecidableEq

/-- The `while trades_executed < num_trades` placement loop of
`trading_loop`, driven by a finite script of venue responses, one per
`place_trade` call.  Python truthiness of `if contract_id:` is kept:
both `None` and `0` are falsy. -/
def runPlacements (n k : ℕ) (r : ℚ) : List PlaceResp → PlaceState → PlaceState × LoopExit
  | [], s =>
    if s.trades_executed < n then (s, LoopExit.scriptEnded)
    else (s, LoopExit.completed)
  | resp :: rest, s =>
    if s.trades_executed < n then
      match place_trade s.amount resp with
      | Except.error _ => (recordStake s, LoopExit.exnCaught)
      | Except.ok none => runPlacements n k r rest (stakeAdjust k r (recordStake s))
      | Except.ok (some c) =>
        if c = 0 then runPlacements n k r rest (stakeAdjust k r (recordStake s))
        else runPlacements n k r rest (stakeAdjust k r (acceptTrade c (recordStake s)))
    else (s, LoopExit.completed)

/-- One response to a `proposal_open_contract` status query: an error
envelope, a payload whose `is_sold` and `profit` fields may be absent
(the source reads them with `.get` defaults `False` and `0`; a missing
`proposal_open_contract` key behaves like `ok none none`), or a receive
that raises. -/
inductive PollResp
  | err
  | ok (is_sold : Option Bool) (profit : Option ℚ)
  | exn
deriving DecidableEq

/-- Outcome of one settlement-monitoring task. -/
inductive TradeOutcome
  | errorStop
  | won (profit : ℚ)
  | lost (profit : ℚ)
  | exnCaught
  | stillPolling
deriving DecidableEq

/-- The `while True` body of `check_trade_result`, before the
surrounding `try/except`: yields the outcome and the number of
`asyncio.sleep(0.5)` calls executed, or `Except.error` when a poll
raises.  A script that ends with the contract neither sold nor errored
leaves the loop blocked on the next receive (`stillPolling`). -/
def checkLoop : List PollResp → Except String (TradeOutcome × ℕ)
  | [] => Except.ok (TradeOutcome.stillPolling, 0)
  | PollResp.exn :: _ => Except.error "recv raised"
  | PollResp.err :: _ => Except.ok (TradeOutcome.errorStop, 0)
  | PollResp.ok so pr :: rest =>
    if so.getD false then
      Except.ok
        (if 0 < pr.getD 0 then TradeOutcome.won (pr.getD 0)
         else TradeOutcome.lost (pr.getD 0), 0)
    else
      match checkLoop rest with
      | Except.ok (o, m) => Except.ok (o, m + 1)
      | Except.error e => Except.error e

/-- Function `check_trade_result`: the poll loop wrapped in
`try ... except Exception`; a raised exception is logged and the
coroutine returns normally (`TradeOutcome.exnCaught`), so the overall
result is always `Except.ok`. -/
def check_trade_result (script : List PollResp) : Except String (TradeOutcome × ℕ) :=
  match checkLoop script with
  | Except.ok res => Except.ok res
  | Except.error _ => Except.ok (TradeOutcome.exnCaught, 0)

/-- Order in which the monitoring coroutines are created, one per
element of `open_trades`.  A Python set iterates in an unspecified
order; sorted order is one such enumeration, and what the claims use is
only that every element occurs exactly once. -/
def monitoredList (s : Finset ℕ) : List ℕ := Finset.sort (fun a b => a ≤ b) s

/-- The `asyncio.gather` over `check_trade_result(websocket, cid)` for
all open contracts: were some task to raise, the exception would
propagate out of the `await`; otherwise every task's outcome is
collected. -/
def monitorAll (cids : List ℕ) (polls : ℕ → List PollResp) :
    Except String (List (ℕ × TradeOutcome × ℕ)) :=
  match cids with
  | [] => Except.ok []
  | c :: rest =>
    match check_trade_result (polls c) with
    | Except.error e => Except.error e
    | Except.ok o =>
      match monitorAll rest polls with
      | Except.error e => Except.error e
      | Except.ok l => Except.ok ((c, o) :: l)

/-- Whether a monitoring task is still waiting for settlement. -/
def isStillPolling : TradeOutcome → Bool
  | TradeOutcome.stillPolling => true
  | _ => false

/-- Function `connect_websocket`: three attempts with exponential
backoff and jitter.  Only whether some attempt succeeded matters to the
claims, so the retry schedule is abstracted to that boolean; `none` is
the `return None` after exhausting the retries. -/
def connect_websocket (succeeds : Bool) : Option Unit :=
  if succeeds then some () else none

/-- What the single authorize round trip does: the receive raises, the
response carries an error envelope, or authorization succeeds. -/
inductive AuthResp
  | exn
  | err
  | ok
deriving DecidableEq

/-- Function `authenticate`: one authorize request, one response; an
error envelope returns `False`, success returns `True`, and a raising
receive escapes the call (`Except.error`) since nothing inside
`authenticate` catches it. -/
def authenticate : AuthResp → Except String Bool
  | AuthResp.exn => Except.error "recv raised"
  | AuthResp.err => Except.ok false
  | AuthResp.ok => Except.ok true

/-- One whole run, as seen by `trading_loop`: whether the connection
came up, what the authorize exchange did, the scripted buy responses,
and a scripted poll stream per contract id. -/
structure RunScript where
  connect_ok : Bool
  auth : AuthResp
  placements : List PlaceResp
  polls : ℕ → List PollResp

/-- Observable outcome of `trading_loop`: whether `websocket.close()`
ran, whether the coroutine actually exited (`false` when it is still
blocked on a receive or on a never-settling poll), and the final
placement-loop state. -/
structure RunResult where
  closed : Bool
  finished : Bool
  final : PlaceState

/-- Function `trading_loop`: connect (return on failure), authenticate
(close and return on an error envelope; a raising `authenticate`
escapes before the `try` is entered, so no close runs), then the
placement loop and the monitoring gather inside
`try ... except Exception ... finally: websocket.close()`. -/
def trading_loop (n k : ℕ) (r base : ℚ) (rs : RunScript) : RunResult :=
  match connect_websocket rs.connect_ok with
  | none => ⟨false, true, initState base⟩
  | some _ =>
    match authenticate rs.auth with
    | Except.error _ => ⟨false, true, initState base⟩
    | Except.ok false => ⟨true, true, initState base⟩
    | Except.ok true =>
      match runPlacements n k r rs.placements (initState base) with
      | (s, LoopExit.scriptEnded) => ⟨false, false, s⟩
      | (s, LoopExit.exnCaught) => ⟨true, true, s⟩
      | (s, LoopExit.completed) =>
        match monitorAll (monitoredList s.open_trades) rs.polls with
        | Except.error _ => ⟨true, true, s⟩
        | Except.ok outs =>
          if outs.all (fun o => !isStillPolling o.2.1) then ⟨true, true, s⟩
          else ⟨false, false, s⟩

/-- Whether a poll response makes the `check_trade_result` body stop on
its own: an error envelope, or a payload whose `is_sold` is true (a
raising receive also stops the body, via the exception). -/
def isTrigger : PollResp → Bool
  | PollResp.err => true
  | PollResp.exn => true
  | PollResp.ok so _ => so.getD false

/-- One channel operation of a monitoring task on the shared websocket:
a status-query send for a contract, the matching receive, or the 0.5 s
poll sleep.  Each is an `await`, hence a scheduling point. -/
inductive ChanOp
  | send (cid : ℕ)
  | recv (cid : ℕ)
  | sleep
deriving DecidableEq

/-- Channel trace of `check_trade_result` for contract `cid` over `n`
unsettled polls: each iteration sends the query, receives the reply and
sleeps. -/
def taskTrace (cid : ℕ) : ℕ → List ChanOp
  | 0 => []
  | n + 1 => ChanOp.send cid :: ChanOp.recv cid :: ChanOp.sleep :: taskTrace cid n

/-- `Interleaves l1 l2 l` says `l` is a merge of `l1` and `l2` keeping
each task's own order.  The source guards the shared socket with no
lock, so cooperative scheduling may run the other ready task at every
`await` and admits every such merge of the two monitoring tasks. -/
inductive Interleaves : List ChanOp → List ChanOp → List ChanOp → Prop
  | nil : Interleaves [] [] []
  | left : ∀ {a l1 l2 l}, Interleaves l1 l2 l → Interleaves (a :: l1) l2 (a :: l)
  | right : ∀ {a l1 l2 l}, Interleaves l1 l2 l → Interleaves l1 (a :: l2) (a :: l)

/-- Scan of a channel trace that checks the serialization discipline the
spec requires: while one send's matching receive is pending, no other
send may be issued. -/
def serializedFrom : Option ℕ → List ChanOp → Bool
  | _, [] => true
  | none, ChanOp.send c :: rest => serializedFrom (some c) rest
  | none, ChanOp.recv _ :: rest => serializedFrom none rest
  | none, ChanOp.sleep :: rest => serializedFrom none rest
  | some _, ChanOp.send _ :: _ => false
  | some c, ChanOp.recv c2 :: rest =>
    if c2 = c then serializedFrom none rest else false
  | some c, ChanOp.sleep :: rest => serializedFrom (some c) rest

/-- A channel trace is serialized when no send is issued while another
send's matching receive is still pending. -/
def serialized (l : List ChanOp) : Bool := serializedFrom none l

lemma recordStake_trades (s : PlaceState) :
    (recordStake s).trades_executed = s.trades_executed := rfl

lemma recordStake_open (s : PlaceState) :
    (recordStake s).open_trades = s.open_trades := rfl

lemma recordStake_succs (s : PlaceState) :
    (recordStake s).succs = s.succs := rfl

lemma stakeAdjust_trades (k : ℕ) (r : ℚ) (s : PlaceState) :
    (stakeAdjust k r s).trades_executed = s.trades_executed := by
  unfold stakeAdjust; split <;> rfl

lemma stakeAdjust_open (k : ℕ) (r : ℚ) (s : PlaceState) :
    (stakeAdjust k r s).open_trades = s.open_trades := by
  unfold stakeAdjust; split <;> rfl

lemma stakeAdjust_succs (k : ℕ) (r : ℚ) (s : PlaceState) :
    (stakeAdjust k r s).succs = s.succs := by
  unfold stakeAdjust; split <;> rfl

lemma ratFloor_intCast (m : ℤ) : ratFloor (m : ℚ) = m := by
  unfold ratFloor
  rw [Rat.num_intCast, Rat.den_intCast]
  exact Int.fdiv_one m

lemma roundHalfEven_intCast (m : ℤ) : roundHalfEven (m : ℚ) = m := by
  unfold roundHalfEven
  rw [ratFloor_intCast, Rat.num_intCast, Rat.den_intCast]
  simp

lemma pyround2_growth_100 : pyround2 (100 * (1 + 2/100)) = 102 := by
  have h1 : (100 * (1 + 2/100) : ℚ) * 100 = ((10200 : ℤ) : ℚ) := by norm_num
  unfold pyround2
  rw [h1, roundHalfEven_intCast]
  norm_num

lemma pyround2_growth_102 : pyround2 (102 * (1 + 2/100)) = 104.04 := by
  have h1 : (102 * (1 + 2/100) : ℚ) * 100 = ((10404 : ℤ) : ℚ) := by norm_num
  unfold pyround2
  rw [h1, roundHalfEven_intCast]
  norm_num

/-- C1 (refuting evaluation): with the source parameters
`trade_interval = 5`, `increase_rate = 0.02`, `base_amount = 100`, a run
whose first placement response is an error envelope has zero successful
placements and an empty success trace, yet the stake has already been
multiplied to `102.0`, because `trades_executed % trade_interval == 0`
is checked after every attempt and `0 % 5 == 0` holds. -/
theorem c1_stake_raised_without_success :
    ((runPlacements 1000 5 (2/100) [PlaceResp.err] (initState 100)).1.trades_executed = 0)
    ∧ ((runPlacements 1000 5 (2/100) [PlaceResp.err] (initState 100)).1.succs = [])
    ∧ ((runPlacements 1000 5 (2/100) [PlaceResp.err] (initState 100)).1.amount = 102) := by
  simp [runPlacements, place_trade, initState, recordStake, acceptTrade, stakeAdjust,
    pyround2_growth_100]

/-- C6: in the run with `num_trades = 3`, `trade_interval = 1`,
`base_amount = 100`, `increase_rate = 0.02` where every placement
succeeds, the stakes submitted to `place_trade` are, in order,
`100`, `102.0`, `104.04`, and the placement loop completes. -/
theorem c6_stake_sequence :
    ((runPlacements 3 1 (2/100)
        [PlaceResp.ok (some 11), PlaceResp.ok (some 12), PlaceResp.ok (some 13)]
        (initState 100)).1.stakes = [100, 102.0, 104.04])
    ∧ ((runPlacements 3 1 (2/100)
        [PlaceResp.ok (some 11), PlaceResp.ok (some 12), PlaceResp.ok (some 13)]
        (initState 100)).2 = LoopExit.completed) := by
  simp [runPlacements, place_trade, initState, recordStake, acceptTrade, stakeAdjust,
    pyround2_growth_100, pyround2_growth_102]
  norm_num

/-- C4: a placement response carrying an error envelope makes
`place_trade` return `None`, and the loop neither increments
`trades_executed` nor adds to `open_trades`; it goes on to the next
iteration (processing `rest`) from a state that differs only in the
stake bookkeeping, so placements continue until `num_trades` successes
are reached or the run is aborted. -/
theorem c4_error_envelope :
    (∀ a : ℚ, place_trade a PlaceResp.err = Except.ok none)
    ∧ ∀ (n k : ℕ) (r : ℚ) (s : PlaceState) (rest : List PlaceResp),
        s.trades_executed < n →
          runPlacements n k r (PlaceResp.err :: rest) s
              = runPlacements n k r rest (stakeAdjust k r (recordStake s))
          ∧ (stakeAdjust k r (recordStake s)).trades_executed = s.trades_executed
          ∧ (stakeAdjust k r (recordStake s)).open_trades = s.open_trades := by
  refine ⟨fun a => rfl, ?_⟩
  intro n k r s rest h
  refine ⟨?_, ?_, ?_⟩
  · simp [runPlacements, place_trade, h]
  · rw [stakeAdjust_trades, recordStake_trades]
  · rw [stakeAdjust_open, recordStake_open]

/-- C4 witness: the theorem applied to the concrete one-iteration run
whose only placement response is an error envelope. -/
theorem c4_error_envelope_witness :
    runPlacements 1 5 (2/100) [PlaceResp.err] (initState 100)
      = runPlacements 1 5 (2/100) [] (stakeAdjust 5 (2/100) (recordStake (initState 100))) :=
  (c4_error_envelope.2 1 5 (2/100) (initState 100) [] (by decide)).1

/-- C9: a placement response with no error envelope but with a missing
or null `buy.contract_id` makes `place_trade` return `None`, and the
orchestrator treats it exactly like a failed placement: the continuation
is the same one as for an error envelope, with `trades_executed` and
`open_trades` unchanged. -/
theorem c9_missing_contract_id :
    (∀ a : ℚ, place_trade a (PlaceResp.ok none) = Except.ok none)
    ∧ ∀ (n k : ℕ) (r : ℚ) (s : PlaceState) (rest : List PlaceResp),
        s.trades_executed < n →
          runPlacements n k r (PlaceResp.ok none :: rest) s
              = runPlacements n k r rest (stakeAdjust k r (recordStake s))
          ∧ (stakeAdjust k r (recordStake s)).trades_executed = s.trades_executed
          ∧ (stakeAdjust k r (recordStake s)).open_trades = s.open_trades := by
  refine ⟨fun a => rfl, ?_⟩
  intro n k r s rest h
  refine ⟨?_, ?_, ?_⟩
  · simp [runPlacements, place_trade, h]
  · rw [stakeAdjust_trades, recordStake_trades]
  · rw [stakeAdjust_open, recordStake_open]

/-- C9 witness: the theorem applied to the concrete one-iteration run
whose only placement response is a success envelope without a contract
id. -/
theorem c9_missing_contract_id_witness :
    runPlacements 1 5 (2/100) [PlaceResp.ok none] (initState 100)
      = runPlacements 1 5 (2/100) [] (stakeAdjust 5 (2/100) (recordStake (initState 100))) :=
  (c9_missing_contract_id.2 1 5 (2/100) (initState 100) [] (by decide)).1

lemma runPlacements_inv (n k : ℕ) (r : ℚ) :
    ∀ (script : List PlaceResp) (s : PlaceState),
      s.open_trades = s.succs.toFinset →
      s.trades_executed = s.succs.length →
      s.trades_executed ≤ n →
      (runPlacements n k r script s).1.open_trades
          = (runPlacements n k r script s).1.succs.toFinset
      ∧ (runPlacements n k r script s).1.trades_executed
          = (runPlacements n k r script s).1.succs.length
      ∧ (runPlacements n k r script s).1.trades_executed ≤ n := by
  intro script
  induction script with
  | nil =>
    intro s h1 h2 h3
    unfold runPlacements
    split <;> exact ⟨h1, h2, h3⟩
  | cons resp rest ih =>
    intro s h1 h2 h3
    by_cases h : s.trades_executed < n
    · cases resp with
      | err =>
        have hred : runPlacements n k r (PlaceResp.err :: rest) s
            = runPlacements n k r rest (stakeAdjust k r (recordStake s)) := by
          simp [runPlacements, place_trade, h]
        rw [hred]
        exact ih _ (by simp [stakeAdjust_open, recordStake_open, stakeAdjust_succs,
            recordStake_succs, h1])
          (by simp [stakeAdjust_trades, recordStake_trades, stakeAdjust_succs,
            recordStake_succs, h2])
          (by simp [stakeAdjust_trades, recordStake_trades, h3])
      | exn =>
        have hred : runPlacements n k r (PlaceResp.exn :: rest) s
            = (recordStake s, LoopExit.exnCaught) := by
          simp [runPlacements, place_trade, h]
        rw [hred]
        exact ⟨by simp [recordStake_open, recordStake_succs, h1],
          by simp [recordStake_trades, recordStake_succs, h2],
          by simp [recordStake_trades, h3]⟩
      | ok cid =>
        cases cid with
        | none =>
          have hred : runPlacements n k r (PlaceResp.ok none :: rest) s
              = runPlacements n k r rest (stakeAdjust k r (recordStake s)) := by
            simp [runPlacements, place_trade, h]
          rw [hred]
          exact ih _ (by simp [stakeAdjust_open, recordStake_open, stakeAdjust_succs,
              recordStake_succs, h1])
            (by simp [stakeAdjust_trades, recordStake_trades, stakeAdjust_succs,
              recordStake_succs, h2])
            (by simp [stakeAdjust_trades, recordStake_trades, h3])
        | some c =>
          by_cases hc : c = 0
          · have hred : runPlacements n k r (PlaceResp.ok (some c) :: rest) s
                = runPlacements n k r rest (stakeAdjust k r (recordStake s)) := by
              simp [runPlacements, place_trade, h, hc]
            rw [hred]
            exact ih _ (by simp [stakeAdjust_open, recordStake_open, stakeAdjust_succs,
                recordStake_succs, h1])
              (by simp [stakeAdjust_trades, recordStake_trades, stakeAdjust_succs,
                recordStake_succs, h2])
              (by simp [stakeAdjust_trades, recordStake_trades, h3])
          · have hred : runPlacements n k r (PlaceResp.ok (some c) :: rest) s
                = runPlacements n k r rest (stakeAdjust k r (acceptTrade c (recordStake s))) := by
              simp [runPlacements, place_trade, h, hc]
            rw [hred]
            refine ih _ ?_ ?_ ?_
            · show (stakeAdjust k r (acceptTrade c (recordStake s))).open_trades
                = (stakeAdjust k r (acceptTrade c (recordStake s))).succs.toFinset
              rw [stakeAdjust_open, stakeAdjust_succs]
              show insert c (recordStake s).open_trades
                = ((recordStake s).succs ++ [c]).toFinset
              rw [recordStake_open, recordStake_succs, h1]
              ext x
              simp [or_comm]
            · rw [stakeAdjust_trades, stakeAdjust_succs]
              show (recordStake s).trades_executed + 1
                = ((recordStake s).succs ++ [c]).length
              rw [recordStake_trades, recordStake_succs]
              simp [h2]
            · rw [stakeAdjust_trades]
              show (recordStake s).trades_executed + 1 ≤ n
              rw [recordStake_trades]
              omega
    · unfold runPlacements
      rw [if_neg h]
      exact ⟨h1, h2, h3⟩

/-- C5 (as amended): for every run, the open-position set is exactly the
set of contract ids of the accepted placements (`succs`), so each
element was produced by at least one successful placement; the number
of entries equals the number of distinct accepted contract ids
(deduplicated, since `open_trades` is a set); `trades_executed` equals
the number of accepted placements and never exceeds `num_trades`, hence
neither does the number of entries; and the settlement monitor is
invoked exactly once per element of the set (the gathered list is
duplicate-free and enumerates the set). -/
theorem c5_open_positions (b : ℚ) (n k : ℕ) (r : ℚ) (script : List PlaceResp) :
    (runPlacements n k r script (initState b)).1.open_trades
        = (runPlacements n k r script (initState b)).1.succs.toFinset
    ∧ (runPlacements n k r script (initState b)).1.open_trades.card
        = (runPlacements n k r script (initState b)).1.succs.dedup.length
    ∧ (runPlacements n k r script (initState b)).1.trades_executed
        = (runPlacements n k r script (initState b)).1.succs.length
    ∧ (runPlacements n k r script (initState b)).1.trades_executed ≤ n
    ∧ (runPlacements n k r script (initState b)).1.open_trades.card ≤ n
    ∧ (monitoredList (runPlacements n k r script (initState b)).1.open_trades).Nodup
    ∧ ∀ c, c ∈ monitoredList (runPlacements n k r script (initState b)).1.open_trades
        ↔ c ∈ (runPlacements n k r script (initState b)).1.open_trades := by
  obtain ⟨h1, h2, h3⟩ := runPlacements_inv n k r script (initState b)
    (by simp [initState]) (by simp [initState]) (by simp [initState])
  refine ⟨h1, ?_, h2, h3, ?_, ?_, ?_⟩
  · rw [h1, List.card_toFinset]
  · calc (runPlacements n k r script (initState b)).1.open_trades.card
        = (runPlacements n k r script (initState b)).1.succs.dedup.length := by
          rw [h1, List.card_toFinset]
      _ ≤ (runPlacements n k r script (initState b)).1.succs.length :=
          List.Sublist.length_le (List.dedup_sublist _)
      _ = (runPlacements n k r script (initState b)).1.trades_executed := h2.symm
      _ ≤ n := h3
  · exact Finset.sort_nodup _ _
  · intro c
    exact Finset.mem_sort _

/-- C5 counterexample: in the run with `num_trades = 2` where the venue
answers both placements with the same contract id `7`, there are two
successful placements (`succs = [7, 7]`, both counted) but the
open-position set holds a single entry, because `set.add` deduplicates;
so the number of entries added differs from the number of non-null
placement results, and the element `7` was produced by two successful
placements, not exactly one. -/
theorem c5_counterexample :
    ((runPlacements 2 5 (2/100) [PlaceResp.ok (some 7), PlaceResp.ok (some 7)]
        (initState 100)).1.succs = [7, 7])
    ∧ ((runPlacements 2 5 (2/100) [PlaceResp.ok (some 7), PlaceResp.ok (some 7)]
        (initState 100)).1.open_trades.card = 1)
    ∧ ((runPlacements 2 5 (2/100) [PlaceResp.ok (some 7), PlaceResp.ok (some 7)]
        (initState 100)).1.open_trades.card
        ≠ (runPlacements 2 5 (2/100) [PlaceResp.ok (some 7), PlaceResp.ok (some 7)]
            (initState 100)).1.succs.length) := by
  refine ⟨by decide, by decide, by decide⟩

/-- C7: on a poll response that reports the contract as sold, the
monitor classifies the trade as WON exactly when the reported profit is
strictly positive, and as LOST otherwise; in particular a missing
profit defaults to `0` and is classified LOST, whatever polls would
have followed. -/
theorem c7_win_loss_classification (p : ℚ) (rest : List PollResp) :
    (check_trade_result (PollResp.ok (some true) (some p) :: rest)
        = Except.ok (TradeOutcome.won p, 0) ↔ 0 < p)
    ∧ (check_trade_result (PollResp.ok (some true) (some p) :: rest)
        = Except.ok (TradeOutcome.lost p, 0) ↔ ¬0 < p)
    ∧ check_trade_result (PollResp.ok (some true) none :: rest)
        = Except.ok (TradeOutcome.lost 0, 0) := by
  by_cases hp : 0 < p <;>
    simp [check_trade_result, checkLoop, hp]

lemma checkLoop_no_trigger :
    ∀ script : List PollResp, (∀ x ∈ script, isTrigger x = false) →
      checkLoop script = Except.ok (TradeOutcome.stillPolling, script.length) := by
  intro script
  induction script with
  | nil => intro h; rfl
  | cons p rest ih =>
    intro h
    have hp := h p (List.mem_cons_self p rest)
    have hrest : ∀ x ∈ rest, isTrigger x = false :=
      fun x hx => h x (List.mem_cons_of_mem p hx)
    cases p with
    | err => simp [isTrigger] at hp
    | exn => simp [isTrigger] at hp
    | ok so pr =>
      have hso : so.getD false = false := by simpa [isTrigger] using hp
      simp [checkLoop, hso, ih hrest]

lemma checkLoop_trigger :
    ∀ script : List PollResp, (∀ x ∈ script, x ≠ PollResp.exn) →
      (∃ x ∈ script, isTrigger x = true) →
      ∃ res : TradeOutcome × ℕ,
        checkLoop script = Except.ok res ∧ res.1 ≠ TradeOutcome.stillPolling := by
  intro script
  induction script with
  | nil => intro _ h; simp at h
  | cons p rest ih =>
    intro hx htr
    cases p with
    | err =>
      exact ⟨(TradeOutcome.errorStop, 0), rfl, by simp⟩
    | exn =>
      exact absurd rfl (hx PollResp.exn (List.mem_cons_self _ _))
    | ok so pr =>
      by_cases hs : so.getD false = true
      · refine ⟨(if 0 < pr.getD 0 then TradeOutcome.won (pr.getD 0)
            else TradeOutcome.lost (pr.getD 0), 0), ?_, ?_⟩
        · simp [checkLoop, hs]
        · split <;> simp
      · have hs2 : so.getD false = false := by simpa using hs
        have htr2 : ∃ x ∈ rest, isTrigger x = true := by
          rcases htr with ⟨x, hmem, hxt⟩
          rcases List.mem_cons.mp hmem with hhead | htail
          · rw [hhead] at hxt
            simp [isTrigger, hs2] at hxt
          · exact ⟨x, htail, hxt⟩
        obtain ⟨⟨o, m⟩, heq, hne⟩ :=
          ih (fun x hxm => hx x (List.mem_cons_of_mem _ hxm)) htr2
        refine ⟨(o, m + 1), ?_, hne⟩
        simp [checkLoop, hs2, heq]

/-- C8: over any stream of genuine venue responses (no raising
receives), `check_trade_result` terminates precisely on a trigger: if
no poll response carries an error envelope or reports the contract
sold, it consumes the whole script still polling, having slept once
(500 ms) after every poll; if some response is a trigger it returns an
outcome other than `stillPolling`; and an error envelope terminates
monitoring immediately and normally (reported, not retried, so it is
non-fatal to the rest of the run). -/
theorem c8_termination (script : List PollResp)
    (hx : ∀ x ∈ script, x ≠ PollResp.exn) :
    ((∀ x ∈ script, isTrigger x = false) →
        check_trade_result script = Except.ok (TradeOutcome.stillPolling, script.length))
    ∧ ((∃ x ∈ script, isTrigger x = true) →
        ∃ res, check_trade_result script = Except.ok res
          ∧ res.1 ≠ TradeOutcome.stillPolling)
    ∧ ∀ rest, check_trade_result (PollResp.err :: rest)
        = Except.ok (TradeOutcome.errorStop, 0) := by
  refine ⟨?_, ?_, fun rest => rfl⟩
  · intro h
    unfold check_trade_result
    rw [checkLoop_no_trigger script h]
  · intro h
    obtain ⟨res, heq, hne⟩ := checkLoop_trigger script hx h
    refine ⟨res, ?_, hne⟩
    unfold check_trade_result
    rw [heq]

/-- C8 witness: the theorem applied to the one-element script carrying
an error envelope. -/
theorem c8_termination_witness :
    check_trade_result [PollResp.err] = Except.ok (TradeOutcome.errorStop, 0) :=
  (c8_termination [PollResp.err] (by decide)).2.2 []

lemma check_trade_result_returns (script : List PollResp) :
    ∃ res, check_trade_result script = Except.ok res := by
  unfold check_trade_result
  cases h : checkLoop script with
  | ok res => exact ⟨res, rfl⟩
  | error e => exact ⟨(TradeOutcome.exnCaught, 0), rfl⟩

/-- C10: the body of `check_trade_result` can raise (a raising poll
makes the bare loop propagate an exception), but the `try/except`
wrapper catches everything, so `check_trade_result` returns normally on
every script; consequently the concurrent monitoring gather completes
with one outcome per open position, whatever any contract's poll stream
does — one contract's failure never aborts the others' monitoring. -/
theorem c10_no_exception_escape :
    (∃ (script : List PollResp) (e : String), checkLoop script = Except.error e)
    ∧ (∀ script : List PollResp, ∃ res, check_trade_result script = Except.ok res)
    ∧ (∀ (cids : List ℕ) (polls : ℕ → List PollResp),
        ∃ outs, monitorAll cids polls = Except.ok outs ∧ outs.length = cids.length) := by
  refine ⟨⟨[PollResp.exn], "recv raised", rfl⟩, check_trade_result_returns, ?_⟩
  intro cids polls
  induction cids with
  | nil => exact ⟨[], rfl, rfl⟩
  | cons c rest ih =>
    obtain ⟨o, ho⟩ := check_trade_result_returns (polls c)
    obtain ⟨outs, houts, hlen⟩ := ih
    refine ⟨(c, o) :: outs, ?_, by simp [hlen]⟩
    unfold monitorAll
    rw [ho, houts]

/-- C2 counterexample: a run in which the connection is successfully
established but the authorize receive raises.  The exception propagates
out of `authenticate` before `trading_loop` reaches its `try/finally`,
so the process exits without ever calling `websocket.close()`: the run
finishes, yet the transport is not closed. -/
theorem c2_counterexample :
    ((⟨true, AuthResp.exn, [], fun _ => []⟩ : RunScript).connect_ok = true)
    ∧ (trading_loop 1000 5 (2/100) 100 ⟨true, AuthResp.exn, [], fun _ => []⟩).finished = true
    ∧ (trading_loop 1000 5 (2/100) 100 ⟨true, AuthResp.exn, [], fun _ => []⟩).closed = false :=
  ⟨rfl, rfl, rfl⟩

/-- C2 (as amended): whenever the connection is established and
`authenticate` returns normally (rather than raising), every exit of
`trading_loop` closes the transport: normal completion of placement and
monitoring, an error envelope from authentication, an exception caught
in the placement phase, and an exception propagating out of the
monitoring gather all reach `websocket.close()`. -/
theorem c2_session_close (n k : ℕ) (r base : ℚ) (rs : RunScript)
    (hc : rs.connect_ok = true) (ha : rs.auth ≠ AuthResp.exn)
    (hf : (trading_loop n k r base rs).finished = true) :
    (trading_loop n k r base rs).closed = true := by
  obtain ⟨c, a, pl, po⟩ := rs
  simp only at hc ha
  subst hc
  cases a with
  | exn => exact absurd rfl ha
  | err => rfl
  | ok =>
    simp only [trading_loop, connect_websocket, authenticate, if_true] at hf ⊢
    generalize hres : runPlacements n k r pl (initState base) = res at hf ⊢
    obtain ⟨s, ex⟩ := res
    cases ex with
    | scriptEnded => simp at hf
    | exnCaught => rfl
    | completed =>
      have hf2 : (match monitorAll (monitoredList s.open_trades) po with
          | Except.error _ => (⟨true, true, s⟩ : RunResult)
          | Except.ok outs =>
            if outs.all (fun o => !isStillPolling o.2.1) then (⟨true, true, s⟩ : RunResult)
            else ⟨false, false, s⟩).finished = true := hf
      show (match monitorAll (monitoredList s.open_trades) po with
          | Except.error _ => (⟨true, true, s⟩ : RunResult)
          | Except.ok outs =>
            if outs.all (fun o => !isStillPolling o.2.1) then (⟨true, true, s⟩ : RunResult)
            else ⟨false, false, s⟩).closed = true
      generalize hm : monitorAll (monitoredList s.open_trades) po = mres at hf2 ⊢
      cases mres with
      | error e => rfl
      | ok outs =>
        by_cases hall : outs.all (fun o => !isStillPolling o.2.1) = true
        · simp [hall]
        · simp [hall] at hf2

/-- C2 witness: the amended theorem applied to the concrete run whose
authentication response is an error envelope. -/
theorem c2_session_close_witness :
    (trading_loop 1000 5 (2/100) 100 ⟨true, AuthResp.err, [], fun _ => []⟩).closed = true :=
  c2_session_close 1000 5 (2/100) 100 ⟨true, AuthResp.err, [], fun _ => []⟩ rfl
    (by decide) rfl

lemma interleaves_nil_left : ∀ l : List ChanOp, Interleaves [] l l := by
  intro l
  induction l with
  | nil => exact Interleaves.nil
  | cons a rest ih => exact Interleaves.right ih

lemma interleaves_append : ∀ l1 l2 : List ChanOp, Interleaves l1 l2 (l1 ++ l2) := by
  intro l1 l2
  induction l1 with
  | nil => simpa using interleaves_nil_left l2
  | cons a rest ih => exact Interleaves.left ih

/-- C3 counterexample: with two monitoring tasks for contracts `1` and
`2` (one poll each), the schedule that runs task 2's send while task
1's receive is still pending is an admissible merge of the two task
traces — the source takes no per-session lock, and the send, receive
and sleep are all awaits — yet it is not serialized: task 2 issues its
send before task 1's matching receive has completed. -/
theorem c3_counterexample :
    Interleaves (taskTrace 1 1) (taskTrace 2 1)
      [ChanOp.send 1, ChanOp.send 2, ChanOp.recv 1, ChanOp.sleep, ChanOp.recv 2, ChanOp.sleep]
    ∧ serialized
      [ChanOp.send 1, ChanOp.send 2, ChanOp.recv 1, ChanOp.sleep, ChanOp.recv 2, ChanOp.sleep]
      = false := by
  constructor
  · show Interleaves [ChanOp.send 1, ChanOp.recv 1, ChanOp.sleep]
      [ChanOp.send 2, ChanOp.recv 2, ChanOp.sleep]
      [ChanOp.send 1, ChanOp.send 2, ChanOp.recv 1, ChanOp.sleep, ChanOp.recv 2, ChanOp.sleep]
    exact Interleaves.left (Interleaves.right (Interleaves.left (Interleaves.left
      (Interleaves.right (Interleaves.right Interleaves.nil)))))
  · rfl

/-- C3 (as amended): the settlement fan-out does not serialize
send/receive pairs across tasks.  For any two contracts each with at
least one poll, some admissible interleaving of the two monitoring
tasks' channel operations has one task issue a send before the other
task's matching receive has completed — the misalignment hazard the
spec names is reachable. -/
theorem c3_no_serialization (c1 c2 n1 n2 : ℕ) (h1 : 0 < n1) (h2 : 0 < n2) :
    ∃ l, Interleaves (taskTrace c1 n1) (taskTrace c2 n2) l ∧ serialized l = false := by
  obtain ⟨m1, rfl⟩ : ∃ m, n1 = m + 1 := ⟨n1 - 1, by omega⟩
  obtain ⟨m2, rfl⟩ : ∃ m, n2 = m + 1 := ⟨n2 - 1, by omega⟩
  refine ⟨ChanOp.send c1 :: ChanOp.send c2 ::
    ((ChanOp.recv c1 :: ChanOp.sleep :: taskTrace c1 m1)
      ++ (ChanOp.recv c2 :: ChanOp.sleep :: taskTrace c2 m2)), ?_, ?_⟩
  · exact Interleaves.left (Interleaves.right (interleaves_append _ _))
  · rfl

/-- C3 witness: the amended theorem applied to contracts `1` and `2`
with one poll each. -/
theorem c3_no_serialization_witness :
    ∃ l, Interleaves (taskTrace 1 1) (taskTrace 2 1) l ∧ serialized l = false :=
  c3_no_serialization 1 2 1 1 (by decide) (by decide)
